import Mathlib

/-
Shallow embedding of `pdf_triage_main.py` (repository PDF_Triage).

Encoded image payloads are modelled as lists of bytes (`Bytes`), decoded
Pillow images as a mode string plus a list of per-pixel channel lists, and
the PyMuPDF / Pillow library calls the script relies on are modelled
explicitly where their behaviour matters.  Filesystem effects (saving the
single-page PDF, `os.path.getsize`) enter as oracle values carried by the
page model; image decode/encode backends enter as a `Codec` record of
functions.  Traces of resource events (`DocEvent`) record the order of
open / save / extract / close operations of `extract_pdf_statistics`.
-/

/-- Raw encoded image bytes (the `image_bytes` payload of
`page.parent.extract_image`). -/
abbrev Bytes := List Nat

/-! ## Raster selector (`extract_largest_image`, lines 108-123)

Each entry of the page's image directory either resolves to its encoded
bytes (`some b`) or raises on `extract_image` (`none`, the warned-and-skipped
case).  The loop state is `(largest_img, max_size, warnings printed)`. -/

/-- One iteration of the scan loop of `extract_largest_image`:
a failed resolution prints a warning and is skipped, a resolved payload
replaces the running maximum only when strictly larger (`img_size > max_size`). -/
def scanStep (acc : Option Bytes × Nat × Nat) (oimg : Option Bytes) :
    Option Bytes × Nat × Nat :=
  match oimg with
  | none => (acc.1, acc.2.1, acc.2.2 + 1)
  | some b => if b.length > acc.2.1 then (some b, b.length, acc.2.2) else acc

/-- The whole scan loop, started from `largest_img = None`, `max_size = 0`,
no warnings. -/
def imageScan (imgs : List (Option Bytes)) : Option Bytes × Nat × Nat :=
  imgs.foldl scanStep (none, 0, 0)

/-- `largest_img` after the scan loop. -/
def selectLargest (imgs : List (Option Bytes)) : Option Bytes :=
  (imageScan imgs).1

/-- Number of "Failed to extract image" warnings printed by the scan loop. -/
def scanWarnings (imgs : List (Option Bytes)) : Nat :=
  (imageScan imgs).2.2

/-- The payloads of the references that resolve successfully, in directory
order. -/
def resolvedPayloads (imgs : List (Option Bytes)) : List Bytes :=
  imgs.filterMap id

/-- Selector written from the words of the claim: return the payload of
largest byte length among the resolved ones, the first-encountered one on
ties, and nothing only when no reference resolved. -/
def specLargestFirst : List Bytes → Option Bytes
  | [] => none
  | b :: rest =>
    match specLargestFirst rest with
    | none => some b
    | some c => if c.length > b.length then some c else some b

/-- Selector written from the amended claim: as `specLargestFirst`, except
that a payload is only ever selected when its byte length is positive
(the code's running maximum starts at `0` and uses a strictly-greater
comparison, so zero-length payloads never win). -/
def specLargestFirstPos : List Bytes → Option Bytes
  | [] => none
  | b :: rest =>
    match specLargestFirstPos rest with
    | none => if b.length > 0 then some b else none
    | some c => if c.length > b.length then some c else some b

/-- Combine the best payload of the tail with the current head, keeping the
head on ties (helper for stating the fold lemmas). -/
def keepLarger (oc : Option Bytes) (b : Bytes) : Option Bytes :=
  match oc with
  | none => some b
  | some c => if c.length > b.length then some c else some b

lemma keepLarger_none (b : Bytes) : keepLarger none b = some b := rfl

lemma keepLarger_some (c b : Bytes) :
    keepLarger (some c) b = if c.length > b.length then some c else some b := rfl

lemma specPos_cons_none (x : Bytes) (l : List Bytes) (h : specLargestFirstPos l = none) :
    specLargestFirstPos (x :: l) = if x.length > 0 then some x else none := by
  simp only [specLargestFirstPos, h]

lemma specPos_cons_some (x : Bytes) (l : List Bytes) (c : Bytes)
    (h : specLargestFirstPos l = some c) :
    specLargestFirstPos (x :: l) = if c.length > x.length then some c else some x := by
  simp only [specLargestFirstPos, h]

lemma specLargestFirstPos_pos :
    ∀ (l : List Bytes) (c : Bytes), specLargestFirstPos l = some c → 0 < c.length := by
  intro l
  induction l with
  | nil => intro c h; simp [specLargestFirstPos] at h
  | cons b rest ih =>
    intro c h
    cases hr : specLargestFirstPos rest with
    | none =>
      rw [specPos_cons_none b rest hr] at h
      by_cases hb : b.length > 0
      · rw [if_pos hb] at h
        exact (Option.some.inj h) ▸ hb
      · rw [if_neg hb] at h
        exact absurd h (by simp)
    | some c' =>
      rw [specPos_cons_some b rest c' hr] at h
      have hc' := ih c' hr
      by_cases hl : c'.length > b.length
      · rw [if_pos hl] at h
        exact (Option.some.inj h) ▸ hc'
      · rw [if_neg hl] at h
        exact (Option.some.inj h) ▸ (by omega : 0 < b.length)

lemma resolvedPayloads_cons_none (rest : List (Option Bytes)) :
    resolvedPayloads (none :: rest) = resolvedPayloads rest := by
  simp [resolvedPayloads, List.filterMap_cons]

lemma resolvedPayloads_cons_some (x : Bytes) (rest : List (Option Bytes)) :
    resolvedPayloads (some x :: rest) = x :: resolvedPayloads rest := by
  simp [resolvedPayloads, List.filterMap_cons]

lemma scan_fold_some :
    ∀ (rest : List (Option Bytes)) (b : Bytes) (w : Nat), 0 < b.length →
      (rest.foldl scanStep (some b, b.length, w)).1 =
        keepLarger (specLargestFirstPos (resolvedPayloads rest)) b := by
  intro rest
  induction rest with
  | nil =>
    intro b w hb
    simp [resolvedPayloads, specLargestFirstPos, keepLarger]
  | cons oimg rest' ih =>
    intro b w hb
    cases oimg with
    | none =>
      rw [List.foldl_cons]
      show (rest'.foldl scanStep (some b, b.length, w + 1)).1 = _
      rw [ih b (w + 1) hb, resolvedPayloads_cons_none]
    | some x =>
      rw [List.foldl_cons]
      show (rest'.foldl scanStep (if x.length > b.length then (some x, x.length, w)
          else (some b, b.length, w))).1 = _
      rw [resolvedPayloads_cons_some]
      by_cases hx : x.length > b.length
      · rw [if_pos hx, ih x w (by omega)]
        cases hr : specLargestFirstPos (resolvedPayloads rest') with
        | none =>
          rw [keepLarger_none, specPos_cons_none _ _ hr,
            if_pos (by omega : x.length > 0), keepLarger_some, if_pos hx]
        | some c =>
          rw [keepLarger_some, specPos_cons_some _ _ _ hr]
          by_cases hcx : c.length > x.length
          · rw [if_pos hcx, keepLarger_some, if_pos (by omega : c.length > b.length)]
          · rw [if_neg hcx, keepLarger_some, if_pos hx]
      · rw [if_neg hx, ih b w hb]
        cases hr : specLargestFirstPos (resolvedPayloads rest') with
        | none =>
          rw [keepLarger_none, specPos_cons_none _ _ hr]
          by_cases hx0 : x.length > 0
          · rw [if_pos hx0, keepLarger_some, if_neg (by omega : ¬ x.length > b.length)]
          · rw [if_neg hx0, keepLarger_none]
        | some c =>
          have hc := specLargestFirstPos_pos _ _ hr
          rw [keepLarger_some, specPos_cons_some _ _ _ hr]
          by_cases hcx : c.length > x.length
          · rw [if_pos hcx, keepLarger_some]
          · rw [if_neg hcx, keepLarger_some, if_neg (by omega : ¬ x.length > b.length),
              if_neg (by omega : ¬ c.length > b.length)]

lemma scan_fold_none :
    ∀ (l : List (Option Bytes)) (w : Nat),
      (l.foldl scanStep (none, 0, w)).1 = specLargestFirstPos (resolvedPayloads l) := by
  intro l
  induction l with
  | nil => intro w; simp [resolvedPayloads, specLargestFirstPos]
  | cons oimg rest ih =>
    intro w
    cases oimg with
    | none =>
      rw [List.foldl_cons]
      show (rest.foldl scanStep (none, 0, w + 1)).1 = _
      rw [ih (w + 1), resolvedPayloads_cons_none]
    | some x =>
      rw [List.foldl_cons]
      show (rest.foldl scanStep (if x.length > 0 then (some x, x.length, w)
          else (none, 0, w))).1 = _
      rw [resolvedPayloads_cons_some]
      by_cases hx : x.length > 0
      · rw [if_pos hx, scan_fold_some rest x w hx]
        cases hr : specLargestFirstPos (resolvedPayloads rest) with
        | none =>
          rw [keepLarger_none, specPos_cons_none _ _ hr, if_pos hx]
        | some c =>
          rw [keepLarger_some, specPos_cons_some _ _ _ hr]
      · rw [if_neg hx, ih w]
        cases hr : specLargestFirstPos (resolvedPayloads rest) with
        | none =>
          rw [specPos_cons_none _ _ hr, if_neg hx]
        | some c =>
          have hc := specLargestFirstPos_pos _ _ hr
          rw [specPos_cons_some _ _ _ hr, if_pos (by omega : c.length > x.length)]

lemma scan_fold_warnings :
    ∀ (l : List (Option Bytes)) (a : Option Bytes × Nat × Nat),
      (l.foldl scanStep a).2.2 = a.2.2 + l.countP (fun o => o.isNone) := by
  intro l
  induction l with
  | nil => intro a; simp
  | cons oimg rest ih =>
    intro a
    rw [List.foldl_cons, ih, List.countP_cons]
    cases oimg with
    | none =>
      simp [scanStep]
      omega
    | some b =>
      simp only [scanStep, Option.isNone]
      by_cases hb : b.length > a.2.1
      · rw [if_pos hb]
        simp
      · rw [if_neg hb]
        simp

/-- Claim C3 (amended): the raster selector returns the resolved payload of
largest byte length, first-encountered on ties, provided that length is
positive; it returns nothing when no reference resolves or every resolved
payload is empty; and it prints one warning per reference that fails to
resolve. -/
theorem c3_largest_selection (imgs : List (Option Bytes)) :
    selectLargest imgs = specLargestFirstPos (resolvedPayloads imgs) ∧
      scanWarnings imgs = imgs.countP (fun o => o.isNone) := by
  constructor
  · exact scan_fold_none imgs 0
  · have h := scan_fold_warnings imgs (none, 0, 0)
    simpa [scanWarnings, imageScan] using h

/-- Claim C3, counterexample to the claim as stated: with a single image
reference that resolves to a zero-byte payload, a reference does resolve
successfully and the claimed selector returns its bytes, yet the code
returns nothing (the running maximum starts at 0 and `0 > 0` is false),
so no image is saved. -/
theorem c3_empty_payload_cex :
    resolvedPayloads [some ([] : Bytes)] = [[]] ∧
      specLargestFirst (resolvedPayloads [some ([] : Bytes)]) = some [] ∧
      selectLargest [some ([] : Bytes)] = none :=
  ⟨rfl, rfl, rfl⟩

/-! ## Page statistics (`get_page_statistics`, lines 64-104)

A drawing `path` dictionary is modelled by `DPath`: the optional `"items"`
key is a list of drawing items, each represented by its kind tag `item[0]`
("l", "re", "c", "v", "y", "m", ...); the optional `"color"` key is the
colour attribute, a tuple of components (a Python tuple is falsy exactly
when empty). -/

structure DPath where
  items : Option (List String)
  color : Option (List Int)
deriving DecidableEq

/-- The per-page statistics dictionary (`stats`), with the colour list kept
as a list; line 102's final join into a display string is `joinColors`
below. -/
structure PageStats where
  pointCount : Nat
  lineCount : Nat
  polygonCount : Nat
  rasterCount : Nat
  vectorColors : List String
deriving DecidableEq

def initStats : PageStats := ⟨0, 0, 0, 0, []⟩

/-- Classification of one drawing item by its kind tag (lines 82-89):
"l" counts as a line, "re" as a polygon, the curve kinds "c"/"v"/"y" as
polygons, "m" as a point, anything else is ignored. -/
def classifyItem (s : PageStats) (tag : String) : PageStats :=
  if tag = "l" then { s with lineCount := s.lineCount + 1 }
  else if tag = "re" then { s with polygonCount := s.polygonCount + 1 }
  else if tag = "c" ∨ tag = "v" ∨ tag = "y" then { s with polygonCount := s.polygonCount + 1 }
  else if tag = "m" then { s with pointCount := s.pointCount + 1 }
  else s

/-- `str(path["color"])` — the stringified colour tuple. -/
def pyStrColor (t : List Int) : String := toString t

/-- Lines 92-93: the colour string of a path, when the `"color"` key is
present and its value truthy (a tuple is truthy iff non-empty). -/
def pathColorStr (p : DPath) : Option String :=
  match p.color with
  | some t => if t ≠ [] then some (pyStrColor t) else none
  | none => none

/-- Lines 94-95: append a colour string only if not already present. -/
def addColorStr (acc : List String) (c : String) : List String :=
  if c ∈ acc then acc else acc ++ [c]

def addPathColor (s : PageStats) (p : DPath) : PageStats :=
  match pathColorStr p with
  | some cs => { s with vectorColors := addColorStr s.vectorColors cs }
  | none => s

/-- The body of the `for path in paths` loop (lines 79-95): classify the
items when the `"items"` key is present, then collect the path's colour. -/
def processDrawPath (s : PageStats) (p : DPath) : PageStats :=
  addPathColor (match p.items with | some its => its.foldl classifyItem s | none => s) p

/-- Line 102: `", ".join(colors) if colors else "None"`. -/
def joinColors (cs : List String) : String :=
  if cs.isEmpty then "None" else String.intercalate ", " cs

/-- `get_page_statistics`: fold the drawing paths, then set the raster
count to the length of `page.get_images(full=True)` (lines 98-99); an
unresolvable image reference still appears in that directory list, hence
`Option Bytes` entries. -/
def get_page_statistics (drawings : List DPath) (images : List (Option Bytes)) : PageStats :=
  { drawings.foldl processDrawPath initStats with rasterCount := images.length }

/-- The stream of stringified truthy colours of a drawing list, in order. -/
def colorStream (drawings : List DPath) : List String :=
  drawings.filterMap pathColorStr

/-- All item kind tags of a drawing list, in order (paths without an
`"items"` key contribute nothing). -/
def itemsOf (drawings : List DPath) : List String :=
  drawings.flatMap (fun p => p.items.getD [])

/-- Spec-words deduplication: keep each string's first occurrence, in
first-encountered order. -/
def dedupFirst : List String → List String
  | [] => []
  | c :: rest => c :: dedupFirst (rest.filter (fun x => x ≠ c))
termination_by l => l.length
decreasing_by
  simp only [List.length_cons]
  exact Nat.lt_succ_of_le (List.length_filter_le _ _)

def isMoveTag (t : String) : Bool := t == "m"

def isLineTag (t : String) : Bool := t == "l"

def isPolyTag (t : String) : Bool := t == "re" || t == "c" || t == "v" || t == "y"

lemma classifyItem_vectorColors (s : PageStats) (t : String) :
    (classifyItem s t).vectorColors = s.vectorColors := by
  unfold classifyItem
  split_ifs <;> rfl

lemma foldl_classify_vectorColors (its : List String) :
    ∀ s : PageStats, (its.foldl classifyItem s).vectorColors = s.vectorColors := by
  induction its with
  | nil => intro s; rfl
  | cons t its ih =>
    intro s
    rw [List.foldl_cons, ih, classifyItem_vectorColors]

lemma processDrawPath_vectorColors (s : PageStats) (p : DPath) :
    (processDrawPath s p).vectorColors =
      (match pathColorStr p with
        | some cs => addColorStr s.vectorColors cs
        | none => s.vectorColors) := by
  cases hp : pathColorStr p with
  | none =>
    cases hi : p.items with
    | none => simp [processDrawPath, addPathColor, hp, hi]
    | some its => simp [processDrawPath, addPathColor, hp, hi, foldl_classify_vectorColors]
  | some cs =>
    cases hi : p.items with
    | none => simp [processDrawPath, addPathColor, hp, hi]
    | some its => simp [processDrawPath, addPathColor, hp, hi, foldl_classify_vectorColors]

lemma foldl_colors (ds : List DPath) :
    ∀ s : PageStats,
      (ds.foldl processDrawPath s).vectorColors =
        (colorStream ds).foldl addColorStr s.vectorColors := by
  induction ds with
  | nil => intro s; rfl
  | cons p ds ih =>
    intro s
    rw [List.foldl_cons, ih]
    cases hp : pathColorStr p with
    | none =>
      have : colorStream (p :: ds) = colorStream ds := by
        simp [colorStream, List.filterMap_cons, hp]
      rw [this, processDrawPath_vectorColors, hp]
    | some cs =>
      have : colorStream (p :: ds) = cs :: colorStream ds := by
        simp [colorStream, List.filterMap_cons, hp]
      rw [this, List.foldl_cons, processDrawPath_vectorColors, hp]

lemma filter_true_of_notMem (l : List String) :
    l.filter (fun x => x ∉ ([] : List String)) = l := by
  induction l with
  | nil => rfl
  | cons a l ih => simp [List.filter_cons, ih]

lemma foldl_addColorStr (l : List String) :
    ∀ acc : List String,
      l.foldl addColorStr acc = acc ++ dedupFirst (l.filter (fun x => x ∉ acc)) := by
  induction l with
  | nil => intro acc; simp [dedupFirst]
  | cons x xs ih =>
    intro acc
    by_cases hx : x ∈ acc
    · rw [List.foldl_cons]
      have ha : addColorStr acc x = acc := if_pos hx
      rw [ha, ih acc]
      have : (x :: xs).filter (fun y => y ∉ acc) = xs.filter (fun y => y ∉ acc) := by
        simp [List.filter_cons, hx]
      rw [this]
    · rw [List.foldl_cons]
      have ha : addColorStr acc x = acc ++ [x] := if_neg hx
      rw [ha, ih (acc ++ [x])]
      have h1 : (x :: xs).filter (fun y => y ∉ acc) = x :: xs.filter (fun y => y ∉ acc) := by
        simp [List.filter_cons, hx]
      have h2 : xs.filter (fun y => y ∉ acc ++ [x]) =
          (xs.filter (fun y => y ∉ acc)).filter (fun y => y ≠ x) := by
        rw [List.filter_filter]
        apply List.filter_congr
        intro y _
        by_cases hy1 : y ∈ acc
        · simp [hy1]
        · by_cases hy2 : y = x
          · simp [hy1, hy2]
          · simp [hy1, hy2]
      rw [h1, h2]
      show acc ++ [x] ++ dedupFirst ((xs.filter fun y => y ∉ acc).filter fun y => y ≠ x) = _
      rw [dedupFirst, List.append_assoc]
      rfl

lemma mem_dedupFirst {x : String} :
    ∀ {l : List String}, x ∈ dedupFirst l → x ∈ l := by
  intro l
  induction l using dedupFirst.induct with
  | case1 => intro h; simp [dedupFirst] at h
  | case2 c rest ih =>
    intro h
    rw [dedupFirst] at h
    rcases List.mem_cons.mp h with h | h
    · exact h ▸ List.mem_cons_self _ _
    · exact List.mem_cons_of_mem _ (List.mem_of_mem_filter (ih h))

lemma dedupFirst_nodup : ∀ l : List String, (dedupFirst l).Nodup := by
  intro l
  induction l using dedupFirst.induct with
  | case1 => simp [dedupFirst]
  | case2 c rest ih =>
    rw [dedupFirst]
    refine List.nodup_cons.mpr ⟨?_, ih⟩
    intro hc
    have := List.of_mem_filter (mem_dedupFirst hc)
    simp at this

/-- Claim C4: the accumulated Vector Colors list is the first-occurrence
deduplication of the stream of stringified truthy path colours: each
distinct colour string appears at most once, in first-encountered order. -/
theorem c4_vector_colors_dedup (drawings : List DPath) (images : List (Option Bytes)) :
    (get_page_statistics drawings images).vectorColors = dedupFirst (colorStream drawings) ∧
      ((get_page_statistics drawings images).vectorColors).Nodup := by
  have hv : (get_page_statistics drawings images).vectorColors =
      (drawings.foldl processDrawPath initStats).vectorColors := rfl
  have hinit : initStats.vectorColors = ([] : List String) := rfl
  rw [hv, foldl_colors, hinit, foldl_addColorStr]
  refine ⟨?_, ?_⟩
  · show [] ++ dedupFirst _ = _
    rw [List.nil_append, filter_true_of_notMem]
  · show ([] ++ dedupFirst _).Nodup
    rw [List.nil_append]
    exact dedupFirst_nodup _

lemma classifyItem_pointCount (s : PageStats) (t : String) :
    (classifyItem s t).pointCount = s.pointCount + (if isMoveTag t then 1 else 0) := by
  by_cases h1 : t = "l"
  · subst h1; simp [classifyItem, isMoveTag]
  · by_cases h2 : t = "re"
    · subst h2; simp [classifyItem, isMoveTag]
    · by_cases h3 : t = "c" ∨ t = "v" ∨ t = "y"
      · rcases h3 with h | h | h <;> subst h <;> simp [classifyItem, isMoveTag]
      · by_cases h4 : t = "m"
        · subst h4; simp [classifyItem, isMoveTag]
        · simp [classifyItem, isMoveTag, h1, h2, h3, h4]

lemma classifyItem_lineCount (s : PageStats) (t : String) :
    (classifyItem s t).lineCount = s.lineCount + (if isLineTag t then 1 else 0) := by
  by_cases h1 : t = "l"
  · subst h1; simp [classifyItem, isLineTag]
  · by_cases h2 : t = "re"
    · subst h2; simp [classifyItem, isLineTag]
    · by_cases h3 : t = "c" ∨ t = "v" ∨ t = "y"
      · rcases h3 with h | h | h <;> subst h <;> simp [classifyItem, isLineTag]
      · by_cases h4 : t = "m"
        · subst h4; simp [classifyItem, isLineTag]
        · simp [classifyItem, isLineTag, h1, h2, h3, h4]

lemma classifyItem_polygonCount (s : PageStats) (t : String) :
    (classifyItem s t).polygonCount = s.polygonCount + (if isPolyTag t then 1 else 0) := by
  by_cases h1 : t = "l"
  · subst h1; simp [classifyItem, isPolyTag]
  · by_cases h2 : t = "re"
    · subst h2; simp [classifyItem, isPolyTag]
    · by_cases h3 : t = "c" ∨ t = "v" ∨ t = "y"
      · rcases h3 with h | h | h <;> subst h <;> simp [classifyItem, isPolyTag]
      · by_cases h4 : t = "m"
        · subst h4; simp [classifyItem, isPolyTag]
        · push_neg at h3
          simp [classifyItem, isPolyTag, h1, h2, h3.1, h3.2.1, h3.2.2, h4]

lemma foldl_classify_proj (proj : PageStats → Nat) (pred : String → Bool)
    (hstep : ∀ s t, proj (classifyItem s t) = proj s + (if pred t then 1 else 0)) :
    ∀ (its : List String) (s : PageStats),
      proj (its.foldl classifyItem s) = proj s + its.countP pred := by
  intro its
  induction its with
  | nil => intro s; simp
  | cons t its ih =>
    intro s
    rw [List.foldl_cons, ih, hstep, List.countP_cons]
    omega

lemma foldl_process_proj (proj : PageStats → Nat) (pred : String → Bool)
    (hstep : ∀ s t, proj (classifyItem s t) = proj s + (if pred t then 1 else 0))
    (hcolor : ∀ s p, proj (addPathColor s p) = proj s) :
    ∀ (ds : List DPath) (s : PageStats),
      proj (ds.foldl processDrawPath s) = proj s + (itemsOf ds).countP pred := by
  intro ds
  induction ds with
  | nil => intro s; simp [itemsOf]
  | cons p ds ih =>
    intro s
    have hitems : itemsOf (p :: ds) = (p.items.getD []) ++ itemsOf ds := by
      simp [itemsOf]
    rw [List.foldl_cons, ih, hitems, List.countP_append]
    have hone : proj (processDrawPath s p) = proj s + (p.items.getD []).countP pred := by
      unfold processDrawPath
      rw [hcolor]
      cases hi : p.items with
      | none => simp
      | some its => simp [foldl_classify_proj proj pred hstep its s]
    rw [hone]
    omega

lemma addPathColor_pointCount (s : PageStats) (p : DPath) :
    (addPathColor s p).pointCount = s.pointCount := by
  cases hp : pathColorStr p <;> simp [addPathColor, hp]

lemma addPathColor_lineCount (s : PageStats) (p : DPath) :
    (addPathColor s p).lineCount = s.lineCount := by
  cases hp : pathColorStr p <;> simp [addPathColor, hp]

lemma addPathColor_polygonCount (s : PageStats) (p : DPath) :
    (addPathColor s p).polygonCount = s.polygonCount := by
  cases hp : pathColorStr p <;> simp [addPathColor, hp]

/-- Claim C5: the analyzer classifies each item by its kind tag — the point
count is the number of "m" (move) items, the line count the number of "l"
(line) items, the polygon count the number of "re" (rectangle) and
"c"/"v"/"y" (curve) items; no other tag is counted and none is an error. -/
theorem c5_instruction_classification (drawings : List DPath) (images : List (Option Bytes)) :
    (get_page_statistics drawings images).pointCount = (itemsOf drawings).countP isMoveTag ∧
      (get_page_statistics drawings images).lineCount = (itemsOf drawings).countP isLineTag ∧
      (get_page_statistics drawings images).polygonCount = (itemsOf drawings).countP isPolyTag := by
  have hp : (get_page_statistics drawings images).pointCount =
      (drawings.foldl processDrawPath initStats).pointCount := rfl
  have hl : (get_page_statistics drawings images).lineCount =
      (drawings.foldl processDrawPath initStats).lineCount := rfl
  have hg : (get_page_statistics drawings images).polygonCount =
      (drawings.foldl processDrawPath initStats).polygonCount := rfl
  refine ⟨?_, ?_, ?_⟩
  · rw [hp, foldl_process_proj PageStats.pointCount isMoveTag classifyItem_pointCount
      addPathColor_pointCount drawings initStats]
    simp [initStats]
  · rw [hl, foldl_process_proj PageStats.lineCount isLineTag classifyItem_lineCount
      addPathColor_lineCount drawings initStats]
    simp [initStats]
  · rw [hg, foldl_process_proj PageStats.polygonCount isPolyTag classifyItem_polygonCount
      addPathColor_polygonCount drawings initStats]
    simp [initStats]

/-! ## Pillow image model (`extract_largest_image` save phase, lines 125-166)

A decoded `PIL.Image` is a mode string plus a list of per-pixel channel
value lists.  The operations the script uses — `Image.new`, `split`,
`paste` with an "L" mask, `convert("RGB")`, `save` — are modelled after
Pillow's documented behaviour; in particular `paste` blends with the
`MULDIV255` fixed-point arithmetic of Pillow's C core, and `split()`
returns one single-band image per band of the mode, so indexing band 3 of
a two-band "LA" image fails with an IndexError. -/

structure DecodedImage where
  mode : String
  pixels : List (List Nat)
deriving DecidableEq

/-- Number of bands of the Pillow modes relevant here ("RGBA"/"CMYK" 4,
"RGB" 3, "LA" 2, single-band otherwise). -/
def numBands (mode : String) : Nat :=
  if mode = "RGBA" ∨ mode = "CMYK" then 4
  else if mode = "RGB" ∨ mode = "YCbCr" then 3
  else if mode = "LA" then 2
  else 1

/-- `img.split()`: one "L" image per band. -/
def imageSplit (img : DecodedImage) : List DecodedImage :=
  (List.range (numBands img.mode)).map (fun i =>
    { mode := "L", pixels := img.pixels.map (fun px => [px.getD i 0]) })

/-- `Image.new('RGB', img.size, (255, 255, 255))`: an opaque white
background with the same pixel count. -/
def newRGBWhite (n : Nat) : DecodedImage :=
  { mode := "RGB", pixels := List.replicate n [255, 255, 255] }

/-- Pillow's `MULDIV255(a, b)` fixed-point multiply:
`tmp = a*b + 128; ((tmp >> 8) + tmp) >> 8`. -/
def muldiv255 (a b : Nat) : Nat :=
  (((a * b + 128) / 256) + (a * b + 128)) / 256

/-- Pillow's `BLEND(mask, in1, in2)` for one channel: `in1` is the
background pixel, `in2` the pasted pixel, `mask` the alpha mask value. -/
def blendChannel (m bgv fgv : Nat) : Nat :=
  muldiv255 bgv (255 - m) + muldiv255 fgv m

/-- Channel conversion to RGB used when an image is pasted onto or
converted to an RGB image: RGBA drops the alpha band, greyscale modes
replicate the single band; other multichannel modes are modelled by
truncation to three channels. -/
def pixelToRGB (mode : String) (px : List Nat) : List Nat :=
  if mode = "RGB" then px
  else if mode = "RGBA" then px.take 3
  else if mode = "L" ∨ mode = "LA" ∨ mode = "1" then [px.getD 0 0, px.getD 0 0, px.getD 0 0]
  else px.take 3

/-- `img.convert('RGB')`. -/
def convertRGB (img : DecodedImage) : DecodedImage :=
  { mode := "RGB", pixels := img.pixels.map (pixelToRGB img.mode) }

/-- `background.paste(img, mask=band)` where `background` is RGB and
`band` a single-band "L" mask: per pixel and channel,
`out = BLEND(mask, background, pasted)`, the pasted image first converted
to the background's RGB mode. -/
def pasteMask (bg fg maskImg : DecodedImage) : DecodedImage :=
  { mode := bg.mode,
    pixels := (bg.pixels.zip (fg.pixels.zip maskImg.pixels)).map
      (fun p =>
        (List.range 3).map (fun j =>
          blendChannel ((p.2.2).getD 0 0) ((p.1).getD j 0)
            ((pixelToRGB fg.mode p.2.1).getD j 0))) }

/-- `background.paste(img)` without a mask: full replacement (the dead
`else` branch of line 140). -/
def pasteFull (bg fg : DecodedImage) : DecodedImage :=
  { mode := bg.mode, pixels := fg.pixels.map (pixelToRGB fg.mode) }

/-- `str.lower()`, written over the character list so that it evaluates
by kernel reduction. -/
def pyLower (s : String) : String := ⟨s.data.map Char.toLower⟩

/-- `'A' in mode` — membership of a character in a Python string. -/
def pyCharIn (c : Char) (s : String) : Bool := s.data.contains c

/-- Lines 131-143: the JPEG colour-model fixup.  For an 'RGBA' or 'LA'
source a white background is created and the source pasted onto it with
`img.split()[3]` as the mask — index 3 exists only for four-band modes, so
for 'LA' this raises an IndexError; any other non-RGB mode is converted
directly to RGB. -/
def jpegModeFixup (img : DecodedImage) : Except String DecodedImage :=
  if img.mode = "RGBA" ∨ img.mode = "LA" then
    if pyCharIn 'A' img.mode then
      match (imageSplit img).get? 3 with
      | some band => .ok (pasteMask (newRGBWhite img.pixels.length) img band)
      | none => .error "IndexError: tuple index out of range"
    else .ok (pasteFull (newRGBWhite img.pixels.length) img)
  else if img.mode ≠ "RGB" then .ok (convertRGB img)
  else .ok img

/-- One `img.save(...)` invocation: target format, the (mode-fixed) image,
and the keyword arguments the script passes (`quality=90` for JPEG,
`compression="tiff_lzw"` for TIFF). -/
structure SaveCall where
  fmt : String
  img : DecodedImage
  quality : Option Nat
  compression : Option String
deriving DecidableEq

/-- Lines 130-153: choose the save call for the requested format — JPEG
after the colour-model fixup with quality 90, PNG as-is, anything else
(the default branch) TIFF with LZW compression. -/
def prepareSave (img : DecodedImage) (image_format : String) : Except String SaveCall :=
  if pyLower image_format = "jpeg" then
    (jpegModeFixup img).map (fun i => ⟨"JPEG", i, some 90, none⟩)
  else if pyLower image_format = "png" then .ok ⟨"PNG", img, none, none⟩
  else .ok ⟨"TIFF", img, none, some "tiff_lzw"⟩

/-- A 1-pixel luminance-plus-alpha image, fully transparent. -/
def laImg : DecodedImage := ⟨"LA", [[100, 0]]⟩

/-- A 2-pixel RGBA image: the first pixel fully transparent, the second
fully opaque. -/
def rgbaImg : DecodedImage := ⟨"RGBA", [[10, 20, 30, 0], [100, 150, 200, 255]]⟩

/-- Claim C1: the RGBA half of the claim holds — compositing onto opaque
white with the alpha band as mask, quality 90, fully transparent pixels
coming out exactly (255,255,255) — but the LA half fails: `img.split()`
of a two-band LA image has no index 3, so the JPEG encode raises an
IndexError instead of compositing. -/
theorem c1_jpeg_la_alpha_bug :
    prepareSave rgbaImg "jpeg" =
        .ok ⟨"JPEG", ⟨"RGB", [[255, 255, 255], [100, 150, 200]]⟩, some 90, none⟩ ∧
      jpegModeFixup laImg = .error "IndexError: tuple index out of range" ∧
      prepareSave laImg "jpeg" = .error "IndexError: tuple index out of range" := by
  refine ⟨?_, ?_, ?_⟩ <;> rfl

/-! ## Saving the largest image (`extract_largest_image`, lines 125-166)

The image decode (`Image.open`) and the backend of `img.save` are external
codec operations that may fail for reasons outside the script (corrupt
stream, unsupported mode for the format, I/O error); they enter the model
as a `Codec` record.  A successful run of the `try` block of lines 126-155
performs decode, mode fixup, and the backend encode of the resulting
`SaveCall`; on any failure the `except` of line 157 runs the single TIFF
fallback of lines 160-163, which re-decodes the original bytes and saves
with extension replaced by ".tiff". -/

structure Codec where
  decode : Bytes → Except String DecodedImage
  encode : SaveCall → Except String Unit

/-- `os.path.splitext(path)[0]`: everything before the last dot (our
paths are bare file names that always contain a dot, so the general
directory/leading-dot subtleties of `splitext` do not arise). -/
def dropExtRev : List Char → Option (List Char)
  | [] => none
  | c :: rest => if c = '.' then some rest else dropExtRev rest

def splitextRoot (s : String) : String :=
  match dropExtRev s.data.reverse with
  | some rest => ⟨rest.reverse⟩
  | none => s

/-- The `try` block of lines 126-155 for the requested format: decode the
selected bytes (`Image.open`), fix the colour model, and encode
(`img.save`); each step can raise. -/
def requestedSave (c : Codec) (b : Bytes) (output_path image_format : String) :
    Except String (String × SaveCall) :=
  match c.decode b with
  | .error e => .error e
  | .ok img =>
    match prepareSave img image_format with
    | .error e => .error e
    | .ok call =>
      match c.encode call with
      | .error e => .error e
      | .ok _ => .ok (output_path, call)

/-- The fallback of lines 160-163: re-decode the original bytes and save
as TIFF under the path with its extension replaced by ".tiff". -/
def tiffFallback (c : Codec) (b : Bytes) (output_path : String) :
    Except String (String × SaveCall) :=
  match c.decode b with
  | .error e => .error e
  | .ok img =>
    match c.encode ⟨"TIFF", img, none, some "tiff_lzw"⟩ with
    | .error e => .error e
    | .ok _ => .ok (splitextRoot output_path ++ ".tiff",
        (⟨"TIFF", img, none, some "tiff_lzw"⟩ : SaveCall))

/-- Observable outcome of `extract_largest_image`: nothing selected (no
resolvable, non-empty payload — `if largest_img:` is falsy), a successful
save in the requested format, a successful TIFF fallback save, or total
failure with nothing written. -/
inductive ExtractOutcome where
  | noImage : ExtractOutcome
  | saved : String → SaveCall → ExtractOutcome
  | fallbackSaved : String → SaveCall → ExtractOutcome
  | fallbackFailed : String → ExtractOutcome
deriving DecidableEq

/-- `extract_largest_image` (lines 106-166): select the largest payload,
then save it, falling back to TIFF once on failure. -/
def extract_largest_image (c : Codec) (imgs : List (Option Bytes))
    (output_path image_format : String) : ExtractOutcome :=
  match selectLargest imgs with
  | none => .noImage
  | some b =>
    if b.isEmpty then .noImage
    else
      match requestedSave c b output_path image_format with
      | .ok pc => .saved pc.1 pc.2
      | .error _ =>
        match tiffFallback c b output_path with
        | .ok pc => .fallbackSaved pc.1 pc.2
        | .error e2 => .fallbackFailed e2

/-! ## Per-document processing (`extract_pdf_statistics`, lines 11-62)

A `PageModel` carries what the script reads from a page: its drawing
paths, its image directory, and the outcome of saving the single-page PDF
(`new_pdf.save` + `os.path.getsize`, an external effect: `.ok size` or a
raised exception).  A `DocInput` carries `fitz.open`'s outcome — the page
list, or the exception raised for a corrupt file. -/

structure PageModel where
  drawings : List DPath
  images : List (Option Bytes)
  splitSave : Except String Nat

structure DocInput where
  basename : String
  origName : String
  openResult : Except String (List PageModel)

inductive DocEvent where
  | openDoc : DocEvent
  | savePagePdf : String → DocEvent
  | pageSaveError : String → DocEvent
  | extractImage : Nat → ExtractOutcome → DocEvent
  | closeDoc : DocEvent
deriving DecidableEq

/-- Line 20-25: map the lowercased format to a file extension, defaulting
to ".tiff". -/
def extMap (image_format : String) : String :=
  if pyLower image_format = "tiff" then ".tiff"
  else if pyLower image_format = "png" then ".png"
  else if pyLower image_format = "jpeg" then ".jpg"
  else ".tiff"

/-- Line 33: `f"{base_filename}_{page_num}_of_{total_pages}.pdf"`. -/
def outputFilename (base : String) (pageNum total : Nat) : String :=
  base ++ "_" ++ toString pageNum ++ "_of_" ++ toString total ++ ".pdf"

/-- Line 52 without the extension:
`f"{base_filename}_{page_num}_of_{total_pages}_largest_image"`. -/
def imageFileStem (base : String) (pageNum total : Nat) : String :=
  base ++ "_" ++ toString pageNum ++ "_of_" ++ toString total ++ "_largest_image"

/-- Line 52: the image artifact file name for the chosen extension. -/
def imageFilename (base : String) (pageNum total : Nat) (ext : String) : String :=
  imageFileStem base pageNum total ++ ext

/-- One report row (lines 43-57): the page statistics dictionary after the
per-page fields are filled in.  `File Size (KB)` is
`os.path.getsize(output_path) / 1024` with Python's true division,
modelled exactly as rational division. -/
structure Row where
  pointCount : Nat
  lineCount : Nat
  polygonCount : Nat
  rasterCount : Nat
  vectorColors : String
  originalFile : String
  outputFile : String
  pageNumber : Nat
  totalPages : Nat
  fileSizeKB : ℚ
  largestImageFile : String
deriving DecidableEq

/-- The row built for one page (lines 43-57).  Note the `Largest Image
File` field is the precomputed `img_filename` whenever the raster count is
positive — it does not depend on what `extract_largest_image` does. -/
def mkRow (orig base : String) (total : Nat) (ext : String) (pageNum : Nat)
    (pg : PageModel) (size : Nat) : Row :=
  { pointCount := (get_page_statistics pg.drawings pg.images).pointCount
    lineCount := (get_page_statistics pg.drawings pg.images).lineCount
    polygonCount := (get_page_statistics pg.drawings pg.images).polygonCount
    rasterCount := (get_page_statistics pg.drawings pg.images).rasterCount
    vectorColors := joinColors (get_page_statistics pg.drawings pg.images).vectorColors
    originalFile := orig
    outputFile := outputFilename base pageNum total
    pageNumber := pageNum
    totalPages := total
    fileSizeKB := (size : ℚ) / 1024
    largestImageFile :=
      if 0 < (get_page_statistics pg.drawings pg.images).rasterCount then
        imageFilename base pageNum total ext
      else "N/A" }

/-- The resource events of one iteration of the page loop: the single-page
PDF save (and on failure the raised exception), then the image extraction
when the raster count is positive. -/
def pageEvents (c : Codec) (base : String) (total : Nat) (ext image_format : String)
    (pageNum : Nat) (pg : PageModel) : List DocEvent :=
  match pg.splitSave with
  | .error e => [DocEvent.savePagePdf (outputFilename base pageNum total),
      DocEvent.pageSaveError e]
  | .ok _ =>
    DocEvent.savePagePdf (outputFilename base pageNum total) ::
      (if 0 < (get_page_statistics pg.drawings pg.images).rasterCount then
        [DocEvent.extractImage pageNum
          (extract_largest_image c pg.images (imageFilename base pageNum total ext) image_format)]
      else [])

/-- The page loop of lines 31-59, from page number `pageNum`: on a page
failure the exception propagates (rows collected so far are lost and the
remaining pages are not processed). -/
def pagesLoop (c : Codec) (orig base : String) (total : Nat) (ext image_format : String)
    (pageNum : Nat) : List PageModel → Except String (List Row) × List DocEvent
  | [] => (.ok [], [])
  | pg :: rest =>
    match pg.splitSave with
    | .error e => (.error e, pageEvents c base total ext image_format pageNum pg)
    | .ok size =>
      ((pagesLoop c orig base total ext image_format (pageNum + 1) rest).1.map
          (fun rs => mkRow orig base total ext pageNum pg size :: rs),
        pageEvents c base total ext image_format pageNum pg ++
          (pagesLoop c orig base total ext image_format (pageNum + 1) rest).2)

/-- `extract_pdf_statistics` (lines 11-62): open the document, run the
page loop, and close the document after the loop — there is no
try/finally, so `pdf_document.close()` runs only when no page raised. -/
def extract_pdf_statistics (c : Codec) (image_format : String) (d : DocInput) :
    Except String (List Row) × List DocEvent :=
  match d.openResult with
  | .error e => (.error e, [])
  | .ok pages =>
    match (pagesLoop c d.origName d.basename pages.length (extMap image_format)
        image_format 1 pages).1 with
    | .ok rows => (.ok rows, DocEvent.openDoc ::
        (pagesLoop c d.origName d.basename pages.length (extMap image_format)
          image_format 1 pages).2 ++ [DocEvent.closeDoc])
    | .error e => (.error e, DocEvent.openDoc ::
        (pagesLoop c d.origName d.basename pages.length (extMap image_format)
          image_format 1 pages).2)

/-- `process_all_pdfs` loop body (lines 182-188): a document failure is
caught and logged, its rows are dropped; a success extends the
accumulated statistics. -/
def procStep (c : Codec) (image_format : String) (acc : List Row × List String)
    (d : DocInput) : List Row × List String :=
  match (extract_pdf_statistics c image_format d).1 with
  | .ok rows => (acc.1 ++ rows, acc.2)
  | .error e => (acc.1, acc.2 ++ [e])

/-- `process_all_pdfs` (lines 168-198): fold over the discovered documents,
returning the collected rows (the report) and the logged errors. -/
def process_all_pdfs (c : Codec) (image_format : String) (docs : List DocInput) :
    List Row × List String :=
  docs.foldl (procStep c image_format) ([], [])

lemma pagesLoop_ok_spec (c : Codec) (orig base : String) (total : Nat)
    (ext image_format : String) :
    ∀ (pages : List PageModel) (k : Nat) (rows : List Row),
      (pagesLoop c orig base total ext image_format k pages).1 = .ok rows →
      rows.length = pages.length ∧
        ∀ (i : Nat) (pg : PageModel), pages.get? i = some pg →
          ∃ size, pg.splitSave = .ok size ∧
            rows.get? i = some (mkRow orig base total ext (k + i) pg size) := by
  intro pages
  induction pages with
  | nil =>
    intro k rows h
    simp only [pagesLoop] at h
    have : rows = [] := by
      cases rows with
      | nil => rfl
      | cons r rs => exact absurd h (by simp)
    subst this
    exact ⟨rfl, by intro i pg hi; simp at hi⟩
  | cons pg rest ih =>
    intro k rows h
    simp only [pagesLoop] at h
    cases hs : pg.splitSave with
    | error e =>
      rw [hs] at h
      exact absurd h (by simp)
    | ok size =>
      rw [hs] at h
      cases hr : (pagesLoop c orig base total ext image_format (k + 1) rest).1 with
      | error e =>
        rw [hr] at h
        exact absurd h (by simp [Except.map])
      | ok rs =>
        rw [hr] at h
        simp only [Except.map] at h
        have hrows : rows = mkRow orig base total ext k pg size :: rs := (Except.ok.inj h).symm
        subst hrows
        obtain ⟨hlen, hidx⟩ := ih (k + 1) rs hr
        constructor
        · simp [hlen]
        · intro i pg' hi
          cases i with
          | zero =>
            have : pg' = pg := by simpa using hi.symm
            subst this
            exact ⟨size, hs, by simp⟩
          | succ n =>
            have hi' : rest.get? n = some pg' := by simpa using hi
            obtain ⟨sz, h1, h2⟩ := hidx n pg' hi'
            refine ⟨sz, h1, ?_⟩
            have hk : k + 1 + n = k + (n + 1) := by omega
            rw [hk] at h2
            simpa using h2

lemma pagesLoop_fst_codec (c c' : Codec) (orig base : String) (total : Nat)
    (ext image_format : String) :
    ∀ (pages : List PageModel) (k : Nat),
      (pagesLoop c orig base total ext image_format k pages).1 =
        (pagesLoop c' orig base total ext image_format k pages).1 := by
  intro pages
  induction pages with
  | nil => intro k; rfl
  | cons pg rest ih =>
    intro k
    simp only [pagesLoop]
    cases hs : pg.splitSave with
    | error e => rfl
    | ok size => rw [ih (k + 1)]

lemma pagesLoop_events_mem (c : Codec) (orig base : String) (total : Nat)
    (ext image_format : String) :
    ∀ (pages : List PageModel) (k : Nat) (ev : DocEvent),
      ev ∈ (pagesLoop c orig base total ext image_format k pages).2 →
      ∃ (j : Nat) (pg : PageModel), pages.get? j = some pg ∧
        ev ∈ pageEvents c base total ext image_format (k + j) pg := by
  intro pages
  induction pages with
  | nil =>
    intro k ev h
    simp [pagesLoop] at h
  | cons pg rest ih =>
    intro k ev h
    simp only [pagesLoop] at h
    cases hs : pg.splitSave with
    | error e =>
      rw [hs] at h
      exact ⟨0, pg, by simp, by simpa using h⟩
    | ok size =>
      rw [hs] at h
      rcases List.mem_append.mp h with h | h
      · exact ⟨0, pg, by simp, by simpa using h⟩
      · obtain ⟨j, pg', hj, hm⟩ := ih (k + 1) ev h
        refine ⟨j + 1, pg', by simpa using hj, ?_⟩
        have hk : k + (j + 1) = k + 1 + j := by omega
        rw [hk]
        exact hm

lemma pageEvents_ne_close_open (c : Codec) (base : String) (total : Nat)
    (ext image_format : String) (n : Nat) (pg : PageModel) :
    ∀ ev ∈ pageEvents c base total ext image_format n pg,
      ev ≠ DocEvent.closeDoc ∧ ev ≠ DocEvent.openDoc := by
  intro ev hev
  unfold pageEvents at hev
  cases hs : pg.splitSave with
  | error e =>
    rw [hs] at hev
    rcases List.mem_cons.mp hev with h | h
    · subst h; simp
    · have h' := List.mem_singleton.mp h
      subst h'; simp
  | ok size =>
    rw [hs] at hev
    rcases List.mem_cons.mp hev with h | h
    · subst h; simp
    · by_cases hc : 0 < (get_page_statistics pg.drawings pg.images).rasterCount
      · rw [if_pos hc] at h
        have h' := List.mem_singleton.mp h
        subst h'; simp
      · rw [if_neg hc] at h
        simp at h

lemma pageEvents_extract_elim (c : Codec) (base : String) (total : Nat)
    (ext image_format : String) (m : Nat) (pg : PageModel) (n : Nat) (o : ExtractOutcome) :
    DocEvent.extractImage n o ∈ pageEvents c base total ext image_format m pg →
    n = m ∧ 0 < (get_page_statistics pg.drawings pg.images).rasterCount ∧
      o = extract_largest_image c pg.images (imageFilename base m total ext) image_format := by
  intro hev
  unfold pageEvents at hev
  cases hs : pg.splitSave with
  | error e =>
    rw [hs] at hev
    simp at hev
  | ok size =>
    rw [hs] at hev
    rcases List.mem_cons.mp hev with h | h
    · exact absurd h (by simp)
    · by_cases hc : 0 < (get_page_statistics pg.drawings pg.images).rasterCount
      · rw [if_pos hc] at h
        have := List.mem_singleton.mp h
        have h1 : n = m := by
          injection this with h1 h2
        have h2 : o = extract_largest_image c pg.images
            (imageFilename base m total ext) image_format := by
          injection this with ha hb
        exact ⟨h1, hc, h2⟩
      · rw [if_neg hc] at h
        simp at h

lemma pagesLoop_no_close_open (c : Codec) (orig base : String) (total : Nat)
    (ext image_format : String) (pages : List PageModel) (k : Nat) :
    DocEvent.closeDoc ∉ (pagesLoop c orig base total ext image_format k pages).2 ∧
      DocEvent.openDoc ∉ (pagesLoop c orig base total ext image_format k pages).2 := by
  constructor
  · intro h
    obtain ⟨j, pg, _, hm⟩ := pagesLoop_events_mem c orig base total ext image_format pages k _ h
    exact (pageEvents_ne_close_open c base total ext image_format (k + j) pg _ hm).1 rfl
  · intro h
    obtain ⟨j, pg, _, hm⟩ := pagesLoop_events_mem c orig base total ext image_format pages k _ h
    exact (pageEvents_ne_close_open c base total ext image_format (k + j) pg _ hm).2 rfl

lemma dropExtRev_append (t : List Char) :
    ∀ (r : List Char), '.' ∉ r → dropExtRev (r ++ '.' :: t) = some t := by
  intro r
  induction r with
  | nil => intro _; simp [dropExtRev]
  | cons c r ih =>
    intro h
    have hc : ¬ c = '.' := by
      intro hc
      exact h (hc ▸ List.mem_cons_self _ _)
    simp only [List.cons_append, dropExtRev, if_neg hc]
    exact ih (fun hm => h (List.mem_cons_of_mem _ hm))

lemma splitextRoot_append (s : String) (cs : List Char) (h : '.' ∉ cs) :
    splitextRoot (s ++ String.mk ('.' :: cs)) = s := by
  have hdata : (s ++ String.mk ('.' :: cs)).data = s.data ++ '.' :: cs := by
    cases s with
    | mk d => rfl
  unfold splitextRoot
  rw [hdata, List.reverse_append, List.reverse_cons, List.append_assoc,
    List.singleton_append, dropExtRev_append _ _ (by simpa using h)]
  cases s with
  | mk d => simp

lemma append_length_ne (s : String) (e1 e2 : String)
    (h : e1.data.length ≠ e2.data.length) : s ++ e1 ≠ s ++ e2 := by
  intro heq
  have hd : (s ++ e1).data = (s ++ e2).data := by rw [heq]
  have h1 : (s ++ e1).data = s.data ++ e1.data := by
    cases s with
    | mk d => cases e1 with
      | mk d1 => rfl
  have h2 : (s ++ e2).data = s.data ++ e2.data := by
    cases s with
    | mk d => cases e2 with
      | mk d2 => rfl
  rw [h1, h2] at hd
  have hlen := congrArg List.length hd
  rw [List.length_append, List.length_append] at hlen
  omega

lemma tiffFallback_ok (c : Codec) (b : Bytes) (path : String) (pc : String × SaveCall)
    (h : tiffFallback c b path = .ok pc) :
    pc.1 = splitextRoot path ++ ".tiff" ∧ pc.2.fmt = "TIFF" := by
  obtain ⟨p1, p2⟩ := pc
  unfold tiffFallback at h
  cases hd : c.decode b with
  | error e =>
    rw [hd] at h
    simp at h
  | ok img =>
    rw [hd] at h
    simp at h
    cases he : c.encode ⟨"TIFF", img, none, some "tiff_lzw"⟩ with
    | error e4 =>
      rw [he] at h
      simp at h
    | ok u =>
      rw [he] at h
      simp at h
      refine ⟨?_, ?_⟩
      · rw [← h.1]
      · rw [← h.2]

lemma extract_fallbackSaved_shape (c : Codec) (imgs : List (Option Bytes))
    (path image_format : String) (p : String) (call : SaveCall) :
    extract_largest_image c imgs path image_format = ExtractOutcome.fallbackSaved p call →
    p = splitextRoot path ++ ".tiff" ∧ call.fmt = "TIFF" := by
  intro h
  unfold extract_largest_image at h
  split at h
  · exact absurd h (by simp)
  · split at h
    · exact absurd h (by simp)
    · split at h
      · exact absurd h (by simp)
      · split at h
        · rename_i oimg b hsel hni x1 e hreq x2 pc hfb
          injection h with h1 h2
          have hshape := tiffFallback_ok c b path pc hfb
          refine ⟨?_, ?_⟩
          · rw [← h1]
            exact hshape.1
          · rw [← h2]
            exact hshape.2
        · exact absurd h (by simp)

lemma extract_fst (c : Codec) (image_format : String) (d : DocInput)
    (pages : List PageModel) (hopen : d.openResult = .ok pages) :
    (extract_pdf_statistics c image_format d).1 =
      (pagesLoop c d.origName d.basename pages.length (extMap image_format)
        image_format 1 pages).1 := by
  unfold extract_pdf_statistics
  rw [hopen]
  cases hL : (pagesLoop c d.origName d.basename pages.length (extMap image_format)
      image_format 1 pages).1 with
  | ok rows => simp [hL]
  | error e => simp [hL]

lemma extract_snd_ok (c : Codec) (image_format : String) (d : DocInput)
    (pages : List PageModel) (rows : List Row) (hopen : d.openResult = .ok pages)
    (hL : (pagesLoop c d.origName d.basename pages.length (extMap image_format)
      image_format 1 pages).1 = .ok rows) :
    (extract_pdf_statistics c image_format d).2 =
      DocEvent.openDoc ::
        (pagesLoop c d.origName d.basename pages.length (extMap image_format)
          image_format 1 pages).2 ++ [DocEvent.closeDoc] := by
  unfold extract_pdf_statistics
  rw [hopen]
  simp [hL]

lemma extract_snd_error (c : Codec) (image_format : String) (d : DocInput)
    (pages : List PageModel) (e : String) (hopen : d.openResult = .ok pages)
    (hL : (pagesLoop c d.origName d.basename pages.length (extMap image_format)
      image_format 1 pages).1 = .error e) :
    (extract_pdf_statistics c image_format d).2 =
      DocEvent.openDoc ::
        (pagesLoop c d.origName d.basename pages.length (extMap image_format)
          image_format 1 pages).2 := by
  unfold extract_pdf_statistics
  rw [hopen]
  simp [hL]

/-- A codec whose decode and encode always succeed (pages without images
never reach it). -/
def trivCodec : Codec := ⟨fun _ => .ok ⟨"RGB", [[0, 0, 0]]⟩, fun _ => .ok ()⟩

def pageNoImg : PageModel := ⟨[], [], .ok 1024⟩

def docNoImg : DocInput := ⟨"doc", "doc.pdf", .ok [pageNoImg]⟩

/-- Claim C9: a page whose raster count is 0 gets the literal sentinel
"N/A" in its Largest Image File field and image extraction is never
attempted for it (no extraction event with its page number occurs in the
document trace). -/
theorem c9_no_raster_sentinel (c : Codec) (image_format : String) (d : DocInput)
    (pages : List PageModel) (rows : List Row) (i : Nat) (pg : PageModel) (r : Row)
    (hopen : d.openResult = .ok pages)
    (hok : (extract_pdf_statistics c image_format d).1 = .ok rows)
    (hi : pages.get? i = some pg) (hr : rows.get? i = some r)
    (hz : (get_page_statistics pg.drawings pg.images).rasterCount = 0) :
    r.largestImageFile = "N/A" ∧
      ∀ o : ExtractOutcome,
        DocEvent.extractImage (i + 1) o ∉ (extract_pdf_statistics c image_format d).2 := by
  rw [extract_fst c image_format d pages hopen] at hok
  obtain ⟨hlen, hidx⟩ := pagesLoop_ok_spec c d.origName d.basename pages.length
    (extMap image_format) image_format pages 1 rows hok
  obtain ⟨size, hs, hget⟩ := hidx i pg hi
  have hr' : r = mkRow d.origName d.basename pages.length (extMap image_format)
      (1 + i) pg size := by
    rw [hr] at hget
    exact Option.some.inj hget
  constructor
  · rw [hr']
    simp [mkRow, hz]
  · intro o hmem
    rw [extract_snd_ok c image_format d pages rows hopen hok] at hmem
    rcases List.mem_cons.mp hmem with h | h
    · exact absurd h (by simp)
    · rcases List.mem_append.mp h with h | h
      · obtain ⟨j, pg', hj, hm⟩ := pagesLoop_events_mem c d.origName d.basename
          pages.length (extMap image_format) image_format pages 1 _ h
        obtain ⟨hnum, hpos, _⟩ := pageEvents_extract_elim c d.basename pages.length
          (extMap image_format) image_format (1 + j) pg' (i + 1) o hm
        have hij : j = i := by omega
        subst hij
        rw [hi] at hj
        have hpg : pg' = pg := Option.some.inj hj.symm
        rw [hpg] at hpos
        omega
      · have := List.mem_singleton.mp h
        exact absurd this (by simp)

/-- Claim C9, witness: a one-page document with an empty image directory. -/
theorem c9_no_raster_witness :
    (mkRow "doc.pdf" "doc" 1 (extMap "tiff") 1 pageNoImg 1024).largestImageFile = "N/A" ∧
      DocEvent.extractImage 1 ExtractOutcome.noImage ∉
        (extract_pdf_statistics trivCodec "tiff" docNoImg).2 := by
  have h := c9_no_raster_sentinel trivCodec "tiff" docNoImg [pageNoImg]
    [mkRow "doc.pdf" "doc" 1 (extMap "tiff") 1 pageNoImg 1024] 0 pageNoImg
    (mkRow "doc.pdf" "doc" 1 (extMap "tiff") 1 pageNoImg 1024) rfl rfl rfl rfl rfl
  exact ⟨h.1, h.2 ExtractOutcome.noImage⟩

/-- Claim C6 (amended): the `File Size (KB)` field of a page's row is the
byte size of the written single-page PDF artifact divided by 1024 —
kilobytes, not bytes. -/
theorem c6_file_size_kb (c : Codec) (image_format : String) (d : DocInput)
    (pages : List PageModel) (rows : List Row) (i : Nat) (pg : PageModel) (r : Row)
    (size : Nat) (hopen : d.openResult = .ok pages)
    (hok : (extract_pdf_statistics c image_format d).1 = .ok rows)
    (hi : pages.get? i = some pg) (hr : rows.get? i = some r)
    (hs : pg.splitSave = .ok size) :
    r.fileSizeKB = (size : ℚ) / 1024 := by
  rw [extract_fst c image_format d pages hopen] at hok
  obtain ⟨hlen, hidx⟩ := pagesLoop_ok_spec c d.origName d.basename pages.length
    (extMap image_format) image_format pages 1 rows hok
  obtain ⟨size', hs', hget⟩ := hidx i pg hi
  have hsz : size' = size := by
    rw [hs] at hs'
    exact (Except.ok.inj hs').symm
  have hr' : r = mkRow d.origName d.basename pages.length (extMap image_format)
      (1 + i) pg size' := by
    rw [hr] at hget
    exact Option.some.inj hget
  rw [hr', hsz]
  rfl

def pageBig : PageModel := ⟨[], [], .ok 2048⟩

def docBig : DocInput := ⟨"doc", "doc.pdf", .ok [pageBig]⟩

/-- Claim C6, counterexample to the claim as stated: for a written
single-page PDF of 2048 bytes the field holds 2 (= 2048/1024, kilobytes),
not 2048 (the size in bytes). -/
theorem c6_file_size_cex :
    ((extract_pdf_statistics trivCodec "tiff" docBig).1.toOption.getD []).map Row.fileSizeKB
        = [((2048 : Nat) : ℚ) / 1024] ∧
      ((2048 : Nat) : ℚ) / 1024 ≠ 2048 ∧ ((2048 : Nat) : ℚ) / 1024 = 2 := by
  refine ⟨rfl, by norm_num, by norm_num⟩

/-- Claim C6, witness: the amended statement at the 2048-byte page. -/
theorem c6_file_size_witness :
    (mkRow "doc.pdf" "doc" 1 (extMap "tiff") 1 pageBig 2048).fileSizeKB
      = ((2048 : Nat) : ℚ) / 1024 :=
  c6_file_size_kb trivCodec "tiff" docBig [pageBig]
    [mkRow "doc.pdf" "doc" 1 (extMap "tiff") 1 pageBig 2048] 0 pageBig
    (mkRow "doc.pdf" "doc" 1 (extMap "tiff") 1 pageBig 2048) 2048 rfl rfl rfl rfl rfl

/-- Claim C2 (amended): if encoding in the requested format fails, exactly
one fallback runs — re-decode the original bytes and encode as TIFF, its
success or failure fully determining the outcome; a document's report rows
do not depend on the image codec at all (so a page whose image extraction
fails completely still yields the same row as on success, its image field
holding the precomputed filename rather than an absent/failed marker); and
on success one row is emitted per page. -/
theorem c2_encode_fallback_policy :
    (∀ (c : Codec) (imgs : List (Option Bytes)) (path image_format : String)
        (b : Bytes) (e : String),
        selectLargest imgs = some b → b.isEmpty = false →
        requestedSave c b path image_format = .error e →
        extract_largest_image c imgs path image_format =
          (match tiffFallback c b path with
            | .ok pc => ExtractOutcome.fallbackSaved pc.1 pc.2
            | .error e2 => ExtractOutcome.fallbackFailed e2)) ∧
      (∀ (c c' : Codec) (image_format : String) (d : DocInput),
        (extract_pdf_statistics c image_format d).1 =
          (extract_pdf_statistics c' image_format d).1) ∧
      (∀ (c : Codec) (image_format : String) (d : DocInput)
          (pages : List PageModel) (rows : List Row),
        d.openResult = .ok pages →
        (extract_pdf_statistics c image_format d).1 = .ok rows →
        rows.length = pages.length) := by
  refine ⟨?_, ?_, ?_⟩
  · intro c imgs path image_format b e hsel hb hreq
    unfold extract_largest_image
    rw [hsel]
    simp [hb, hreq]
  · intro c c' image_format d
    cases hopen : d.openResult with
    | error e =>
      unfold extract_pdf_statistics
      rw [hopen]
    | ok pages =>
      rw [extract_fst c image_format d pages hopen,
        extract_fst c' image_format d pages hopen,
        pagesLoop_fst_codec c c' d.origName d.basename pages.length
          (extMap image_format) image_format pages 1]
  · intro c image_format d pages rows hopen hok
    rw [extract_fst c image_format d pages hopen] at hok
    exact (pagesLoop_ok_spec c d.origName d.basename pages.length
      (extMap image_format) image_format pages 1 rows hok).1

/-- A codec that decodes everything to a small RGB image but whose JPEG
encoder always fails. -/
def rgbSmall : DecodedImage := ⟨"RGB", [[7, 7, 7]]⟩

def failJpegCodec : Codec :=
  ⟨fun _ => .ok rgbSmall,
   fun call => if call.fmt = "JPEG" then .error "jpeg encoder unavailable" else .ok ()⟩

/-- A codec that cannot even decode: the requested save and the TIFF
fallback both fail. -/
def failAllCodec : Codec := ⟨fun _ => .error "decode boom", fun _ => .error "encode boom"⟩

def pageImg : PageModel := ⟨[], [some [9]], .ok 100⟩

def docImg : DocInput := ⟨"doc", "doc.pdf", .ok [pageImg]⟩

/-- Claim C2, counterexample to the "image field left absent/failed" part:
with a codec for which the requested save and the TIFF fallback both fail
(nothing is written, outcome `fallbackFailed`), the emitted row's Largest
Image File field still holds the ordinary precomputed filename, not an
absent/failed marker. -/
theorem c2_image_field_cex :
    ((extract_pdf_statistics failAllCodec "png" docImg).1.toOption.getD []).map
        Row.largestImageFile = [imageFilename "doc" 1 1 ".png"] ∧
      imageFilename "doc" 1 1 ".png" ≠ "N/A" ∧
      (extract_pdf_statistics failAllCodec "png" docImg).2 =
        [DocEvent.openDoc, DocEvent.savePagePdf (outputFilename "doc" 1 1),
          DocEvent.extractImage 1 (ExtractOutcome.fallbackFailed "decode boom"),
          DocEvent.closeDoc] :=
  ⟨rfl, by decide, rfl⟩

/-- Claim C2, witness: a failing JPEG encode falls back to one TIFF save of
the re-decoded bytes; a successful document yields one row per page. -/
theorem c2_encode_fallback_witness :
    extract_largest_image failJpegCodec [some [7]] "img.jpg" "jpeg" =
        ExtractOutcome.fallbackSaved "img.tiff"
          ⟨"TIFF", rgbSmall, none, some "tiff_lzw"⟩ ∧
      ([mkRow "doc.pdf" "doc" 1 (extMap "tiff") 1 pageNoImg 1024]).length =
        ([pageNoImg]).length := by
  constructor
  · have h := c2_encode_fallback_policy.1 failJpegCodec [some [7]] "img.jpg" "jpeg"
      [7] "jpeg encoder unavailable" rfl rfl rfl
    exact h.trans rfl
  · exact c2_encode_fallback_policy.2.2 trivCodec "tiff" docNoImg [pageNoImg]
      [mkRow "doc.pdf" "doc" 1 (extMap "tiff") 1 pageNoImg 1024] rfl rfl

/-- Claim C7 (amended): the document is opened at the start; on the
success path it is closed exactly once, after all pages; but on a page
failure the exception propagates and the close never happens — the trace
of a failed document contains no close event. -/
theorem c7_close_discipline :
    (∀ (c : Codec) (image_format : String) (d : DocInput) (rows : List Row),
        (extract_pdf_statistics c image_format d).1 = .ok rows →
        ∃ evs, (extract_pdf_statistics c image_format d).2 =
            DocEvent.openDoc :: evs ++ [DocEvent.closeDoc] ∧
          DocEvent.closeDoc ∉ evs ∧ DocEvent.openDoc ∉ evs) ∧
      (∀ (c : Codec) (image_format : String) (d : DocInput) (e : String),
        (extract_pdf_statistics c image_format d).1 = .error e →
        DocEvent.closeDoc ∉ (extract_pdf_statistics c image_format d).2) := by
  constructor
  · intro c image_format d rows hok
    cases hopen : d.openResult with
    | error e =>
      have h1 : (extract_pdf_statistics c image_format d).1 = .error e := by
        unfold extract_pdf_statistics
        rw [hopen]
      rw [h1] at hok
      exact absurd hok (by simp)
    | ok pages =>
      rw [extract_fst c image_format d pages hopen] at hok
      refine ⟨(pagesLoop c d.origName d.basename pages.length (extMap image_format)
        image_format 1 pages).2, ?_, ?_, ?_⟩
      · exact extract_snd_ok c image_format d pages rows hopen hok
      · exact (pagesLoop_no_close_open c d.origName d.basename pages.length
          (extMap image_format) image_format pages 1).1
      · exact (pagesLoop_no_close_open c d.origName d.basename pages.length
          (extMap image_format) image_format pages 1).2
  · intro c image_format d e herr
    cases hopen : d.openResult with
    | error e' =>
      have h2 : (extract_pdf_statistics c image_format d).2 = [] := by
        unfold extract_pdf_statistics
        rw [hopen]
      rw [h2]
      simp
    | ok pages =>
      rw [extract_fst c image_format d pages hopen] at herr
      rw [extract_snd_error c image_format d pages e hopen herr]
      intro hmem
      rcases List.mem_cons.mp hmem with h | h
      · exact absurd h (by simp)
      · exact (pagesLoop_no_close_open c d.origName d.basename pages.length
          (extMap image_format) image_format pages 1).1 h

def pageBad : PageModel := ⟨[], [], .error "disk full"⟩

def docBad : DocInput := ⟨"bad", "bad.pdf", .ok [pageBad]⟩

/-- Claim C7, counterexample to the claim as stated: when saving the
single page fails, the exception propagates out of
`extract_pdf_statistics` and the document is never closed — the trace
contains an open event but no close event. -/
theorem c7_close_cex :
    (extract_pdf_statistics trivCodec "tiff" docBad).1 = .error "disk full" ∧
      DocEvent.openDoc ∈ (extract_pdf_statistics trivCodec "tiff" docBad).2 ∧
      DocEvent.closeDoc ∉ (extract_pdf_statistics trivCodec "tiff" docBad).2 :=
  ⟨rfl, by decide, by decide⟩

/-- Claim C7, witness: the amended statement at a succeeding and at a
failing document. -/
theorem c7_close_witness :
    (∃ evs, (extract_pdf_statistics trivCodec "tiff" docNoImg).2 =
        DocEvent.openDoc :: evs ++ [DocEvent.closeDoc] ∧
        DocEvent.closeDoc ∉ evs ∧ DocEvent.openDoc ∉ evs) ∧
      DocEvent.closeDoc ∉ (extract_pdf_statistics trivCodec "tiff" docBad).2 :=
  ⟨c7_close_discipline.1 trivCodec "tiff" docNoImg
      [mkRow "doc.pdf" "doc" 1 (extMap "tiff") 1 pageNoImg 1024] rfl,
    c7_close_discipline.2 trivCodec "tiff" docBad "disk full" rfl⟩

lemma splitextRoot_png (stem : String) : splitextRoot (stem ++ ".png") = stem := by
  have h0 := splitextRoot_append stem ['p', 'n', 'g'] (by decide)
  have h1 : String.mk ('.' :: ['p', 'n', 'g']) = ".png" := rfl
  rw [h1] at h0
  exact h0

lemma splitextRoot_jpg (stem : String) : splitextRoot (stem ++ ".jpg") = stem := by
  have h0 := splitextRoot_append stem ['j', 'p', 'g'] (by decide)
  have h1 : String.mk ('.' :: ['j', 'p', 'g']) = ".jpg" := rfl
  rw [h1] at h0
  exact h0

/-- Claim C10: the Largest Image File field of a row with positive raster
count is the filename computed from the requested format's extension,
whatever the codec does (the field is set before extraction and never
updated); a TIFF-fallback save writes under the path with its extension
replaced by ".tiff", so for a ".png" or ".jpg" request the written file's
name differs from the recorded one. -/
theorem c10_image_field_precomputed :
    (∀ (c : Codec) (image_format : String) (d : DocInput)
        (pages : List PageModel) (rows : List Row) (i : Nat) (pg : PageModel) (r : Row),
        d.openResult = .ok pages →
        (extract_pdf_statistics c image_format d).1 = .ok rows →
        pages.get? i = some pg → rows.get? i = some r →
        0 < (get_page_statistics pg.drawings pg.images).rasterCount →
        r.largestImageFile =
          imageFilename d.basename (i + 1) pages.length (extMap image_format)) ∧
      (∀ (c : Codec) (imgs : List (Option Bytes)) (path image_format p : String)
          (call : SaveCall),
        extract_largest_image c imgs path image_format =
          ExtractOutcome.fallbackSaved p call →
        p = splitextRoot path ++ ".tiff" ∧ call.fmt = "TIFF") ∧
      (∀ (c : Codec) (imgs : List (Option Bytes)) (stem image_format p : String)
          (call : SaveCall),
        (extract_largest_image c imgs (stem ++ ".png") image_format =
            ExtractOutcome.fallbackSaved p call →
          p = stem ++ ".tiff" ∧ p ≠ stem ++ ".png") ∧
        (extract_largest_image c imgs (stem ++ ".jpg") image_format =
            ExtractOutcome.fallbackSaved p call →
          p = stem ++ ".tiff" ∧ p ≠ stem ++ ".jpg")) := by
  refine ⟨?_, ?_, ?_⟩
  · intro c image_format d pages rows i pg r hopen hok hi hr hpos
    rw [extract_fst c image_format d pages hopen] at hok
    obtain ⟨hlen, hidx⟩ := pagesLoop_ok_spec c d.origName d.basename pages.length
      (extMap image_format) image_format pages 1 rows hok
    obtain ⟨size, hs, hget⟩ := hidx i pg hi
    have hr' : r = mkRow d.origName d.basename pages.length (extMap image_format)
        (1 + i) pg size := by
      rw [hr] at hget
      exact Option.some.inj hget
    rw [hr']
    simp [mkRow, hpos, Nat.add_comm]
  · intro c imgs path image_format p call h
    exact extract_fallbackSaved_shape c imgs path image_format p call h
  · intro c imgs stem image_format p call
    constructor
    · intro h
      obtain ⟨hp, _⟩ := extract_fallbackSaved_shape c imgs (stem ++ ".png")
        image_format p call h
      rw [splitextRoot_png stem] at hp
      exact ⟨hp, hp ▸ append_length_ne stem ".tiff" ".png" (by decide)⟩
    · intro h
      obtain ⟨hp, _⟩ := extract_fallbackSaved_shape c imgs (stem ++ ".jpg")
        image_format p call h
      rw [splitextRoot_jpg stem] at hp
      exact ⟨hp, hp ▸ append_length_ne stem ".tiff" ".jpg" (by decide)⟩

def failPngCodec : Codec :=
  ⟨fun _ => .ok rgbSmall,
   fun call => if call.fmt = "PNG" then .error "png encoder unavailable" else .ok ()⟩

/-- Claim C10, witness: the recorded field of a page with an image, and a
PNG-request fallback whose written name differs from the requested one. -/
theorem c10_image_field_witness :
    (mkRow "doc.pdf" "doc" 1 (extMap "tiff") 1 pageImg 100).largestImageFile =
        imageFilename "doc" 1 1 (extMap "tiff") ∧
      ("img" ++ ".tiff" : String) ≠ "img" ++ ".png" := by
  constructor
  · exact c10_image_field_precomputed.1 trivCodec "tiff" docImg [pageImg]
      [mkRow "doc.pdf" "doc" 1 (extMap "tiff") 1 pageImg 100] 0 pageImg
      (mkRow "doc.pdf" "doc" 1 (extMap "tiff") 1 pageImg 100) rfl rfl rfl rfl (by decide)
  · exact ((c10_image_field_precomputed.2.2 failPngCodec [some [9]] "img" "png"
      ("img" ++ ".tiff") ⟨"TIFF", rgbSmall, none, some "tiff_lzw"⟩).1 (by decide)).2

lemma process_fold (c : Codec) (image_format : String) :
    ∀ (docs : List DocInput) (acc : List Row × List String),
      docs.foldl (procStep c image_format) acc =
        (acc.1 ++ docs.flatMap
            (fun d => ((extract_pdf_statistics c image_format d).1).toOption.getD []),
          acc.2 ++ docs.filterMap (fun d =>
            match (extract_pdf_statistics c image_format d).1 with
            | .ok _ => none
            | .error e => some e)) := by
  intro docs
  induction docs with
  | nil => intro acc; simp
  | cons d docs ih =>
    intro acc
    rw [List.foldl_cons, ih]
    cases hd : (extract_pdf_statistics c image_format d).1 with
    | ok rows =>
      simp [procStep, hd, Except.toOption, List.flatMap_cons, List.filterMap_cons,
        List.append_assoc]
    | error e =>
      simp [procStep, hd, Except.toOption, List.flatMap_cons, List.filterMap_cons,
        List.append_assoc]

def docCorrupt : DocInput := ⟨"broken", "broken.pdf", .error "cannot open broken.pdf"⟩

def pageOne : PageModel := ⟨[], [], .ok 100⟩

def pageTwo : PageModel := ⟨[], [], .ok 200⟩

def docValid2 : DocInput := ⟨"ok", "ok.pdf", .ok [pageOne, pageTwo]⟩

/-- Claim C8: a document-level failure is caught and logged, contributes no
rows, and processing continues with the next document — the report is the
concatenation of the successful documents' rows and the log holds one entry
per failed document; concretely, one corrupt plus one valid 2-page PDF
yields exactly 2 rows and the corrupt file's logged error. -/
theorem c8_batch_isolation :
    (∀ (c : Codec) (image_format : String) (docs : List DocInput),
        (process_all_pdfs c image_format docs).1 =
          docs.flatMap
            (fun d => ((extract_pdf_statistics c image_format d).1).toOption.getD []) ∧
        (process_all_pdfs c image_format docs).2 =
          docs.filterMap (fun d =>
            match (extract_pdf_statistics c image_format d).1 with
            | .ok _ => none
            | .error e => some e)) ∧
      (process_all_pdfs trivCodec "tiff" [docCorrupt, docValid2]).1.length = 2 ∧
      (process_all_pdfs trivCodec "tiff" [docCorrupt, docValid2]).2 =
        ["cannot open broken.pdf"] := by
  refine ⟨?_, rfl, rfl⟩
  intro c image_format docs
  have h := process_fold c image_format docs ([], [])
  constructor
  · show (docs.foldl (procStep c image_format) ([], [])).1 = _
    rw [h]
    simp
  · show (docs.foldl (procStep c image_format) ([], [])).2 = _
    rw [h]
    simp
